import Mathlib

/-
Verification of the example-JSON synthesizer of
`src/patterns/workflows/1-introduction/client_util.py`.

The Python functions `_example_scalar`, `_example_for_type` and
`model_to_json` are embedded shallowly below:

* Python type annotations that the synthesizer dispatches on become the
  inductive type `Ty`; pydantic model classes become the `Ty.model`
  constructor carrying the class name and its declared fields in order.
* synthesized Python values become the inductive type `Value`.
* `datetime.date` becomes the `Date` structure; `date.today()` is an
  explicit `today : Date` parameter; `today + timedelta(days=n)` is
  `addDays today n` (iterated calendar successor).
* `random.Random(seed).randint(lo, hi)` — a Mersenne-Twister draw that we
  cannot reproduce arithmetically — is abstracted as a `PyRandom`
  structure: an arbitrary function of the seed string and the inclusive
  bounds, constrained (as `random.randint` is documented) to return a
  value in `[lo, hi]`.  Every theorem quantifies over this structure, and
  concrete instances (`rngLo`, `rngHi`) are used for witnesses.
* exceptions (`TypeError` from unhashable dict/set members or from
  `json.dumps` on a set, the `RuntimeError` guard of `model_to_json`)
  become `Except String` with the CPython message text.
-/

namespace ClientUtil

/-! ## Calendar dates (`datetime.date`) -/

/-- A proleptic-Gregorian calendar date, as `datetime.date`. -/
structure Date where
  year : Nat
  month : Nat
  day : Nat
deriving DecidableEq

/-- Gregorian leap-year rule used by `datetime`. -/
def isLeap (y : Nat) : Bool :=
  (y % 4 == 0 && y % 100 != 0) || (y % 400 == 0)

/-- Number of days in month `m` of year `y` (months are 1-based). -/
def daysInMonth (y m : Nat) : Nat :=
  if m == 2 then (if isLeap y then 29 else 28)
  else if m == 4 || m == 6 || m == 9 || m == 11 then 30
  else 31

/-- A well-formed calendar date (year at least 1, month 1..12, day within
the month).  `datetime.date` additionally caps years at 9999; that cap is
irrelevant to the claims and not modelled. -/
def ValidDate (d : Date) : Prop :=
  1 ≤ d.year ∧ 1 ≤ d.month ∧ d.month ≤ 12 ∧ 1 ≤ d.day ∧
    d.day ≤ daysInMonth d.year d.month

instance : DecidablePred ValidDate := fun d => by
  unfold ValidDate; infer_instance

/-- The next calendar day. -/
def succDate (d : Date) : Date :=
  if d.day < daysInMonth d.year d.month then ⟨d.year, d.month, d.day + 1⟩
  else if d.month < 12 then ⟨d.year, d.month + 1, 1⟩
  else ⟨d.year + 1, 1, 1⟩

/-- `d + timedelta(days := n)`. -/
def addDays (d : Date) : Nat → Date
  | 0 => d
  | n + 1 => succDate (addDays d n)

/-- Strict chronological order on dates (lexicographic on y, m, d). -/
def dateLt (a b : Date) : Prop :=
  a.year < b.year ∨
    (a.year = b.year ∧
      (a.month < b.month ∨ (a.month = b.month ∧ a.day < b.day)))

instance : Decidable (dateLt a b) := by
  unfold dateLt; infer_instance

/-- Left-pad the decimal rendering of `n` with zeros to width `w`
(Python's `"%0*d"` / `f"{n:0wd}"` for nonnegative `n`). -/
def zfill (w : Nat) (n : Nat) : String :=
  let s := toString n
  String.mk (List.replicate (w - s.length) '0') ++ s

/-- `datetime.date.isoformat`: `YYYY-MM-DD`, zero-padded. -/
def isoFormat (d : Date) : String :=
  zfill 4 d.year ++ "-" ++ zfill 2 d.month ++ "-" ++ zfill 2 d.day

/-! ## Python string operations used by the synthesizer -/

/-- Character-list version of Python's `s.startswith(pat)`. -/
def chStarts : List Char → List Char → Bool
  | _, [] => true
  | [], _ :: _ => false
  | a :: as, b :: bs => a == b && chStarts as bs

/-- Character-list version of Python's substring test `pat in s`. -/
def chHasSub : List Char → List Char → Bool
  | [], pat => pat.isEmpty
  | s@(_ :: rest), pat => chStarts s pat || chHasSub rest pat

/-- Python's substring containment `pat in s`. -/
def strContains (s pat : String) : Bool := chHasSub s.toList pat.toList

/-- Python's `str.lower()` (over the ASCII alphabet, which covers every
field and model name in this repository). -/
def strLower (s : String) : String := String.mk (s.toList.map Char.toLower)

/-- Python's `s.endswith(pat)`: suffix test, via reversed character
lists. -/
def strEndsWith (s pat : String) : Bool :=
  chStarts s.toList.reverse pat.toList.reverse

/-- One pass of Python's `str.title()`: the Boolean records whether the
previous character was alphabetic. -/
def pyTitleAux : Bool → List Char → List Char
  | _, [] => []
  | prevAlpha, c :: cs =>
    if c.isAlpha then
      (if prevAlpha then c.toLower else c.toUpper) :: pyTitleAux true cs
    else
      c :: pyTitleAux false cs

/-- Python's `str.title()` (over the ASCII alphabet, which covers every
field and model name in this repository). -/
def pyTitle (s : String) : String := String.mk (pyTitleAux false s.toList)

/-- Python's `str.replace("_", " ")` (single-character pattern, so a
character-wise map). -/
def underscoreToSpace (s : String) : String :=
  String.mk (s.toList.map (fun c => if c = '_' then ' ' else c))

/-- Python's `s.rstrip("s")`: remove ALL trailing `'s'` characters (the
maximal trailing run, not just one). -/
def rstripS (s : String) : String :=
  String.mk ((s.toList.reverse.dropWhile (fun c => c == 's')).reverse)

/-- Line 103 of client_util.py: `field_name.rstrip("s") or field_name` —
the "singular" naming basis for sequence elements, falling back to the
original field name when stripping empties the string. -/
def pySingular (fieldName : String) : String :=
  let s := rstripS fieldName
  if s = "" then fieldName else s

/-- Line 73 of client_util.py: the seed string for the per-field
pseudo-random source. -/
def seed_basis (modelName fieldName : String) : String :=
  modelName ++ ":" ++ fieldName

/-! ## The pseudo-random source -/

/-- Abstraction of `random.Random(seed).randint(lo, hi)`.  The Mersenne
Twister draw cannot be reproduced arithmetically here, so it is an
arbitrary function of the seed string and the two inclusive bounds,
constrained exactly as `random.randint` is specified: the result lies in
the closed interval `[lo, hi]`.  All theorems quantify over this
structure; witnesses instantiate it with the concrete `rngLo` / `rngHi`
below. -/
structure PyRandom where
  randint : String → Nat → Nat → Nat
  randint_mem : ∀ s lo hi, lo ≤ hi →
    lo ≤ randint s lo hi ∧ randint s lo hi ≤ hi

/-- A valid pseudo-random source that always draws the lower bound. -/
def rngLo : PyRandom :=
  ⟨fun _ lo _ => lo, fun _ _ _ h => ⟨le_refl _, h⟩⟩

/-- A valid pseudo-random source that always draws the upper bound. -/
def rngHi : PyRandom :=
  ⟨fun _ _ hi => hi, fun _ _ _ h => ⟨h, le_refl _⟩⟩

/-- A valid pseudo-random source that agrees with `rngLo` exactly on the
seed `"M:start_date"` and with `rngHi` on every other seed; used to
exhibit that a draw depends only on its own seed's values. -/
def rngSplit : PyRandom :=
  ⟨fun s lo hi => if s = "M:start_date" then lo else hi,
   fun s _ _ h => by
     dsimp only
     by_cases hs : s = "M:start_date"
     · rw [if_pos hs]; exact ⟨le_refl _, h⟩
     · rw [if_neg hs]; exact ⟨h, le_refl _⟩⟩

/-! ## Type expressions and synthesized values -/

/-- The type expressions `_example_for_type` dispatches on, via
`typing.get_origin` / `get_args`: the scalar annotations reaching
`_example_scalar` (`str`, `int`, `float`, `bool`, `typing.Any`, and any
other annotation, covered by `other`), the subscripted containers
`list[e]` / `tuple[e, ...]` / `set[e]` / `dict[k, v]` (the source uses
only `args[0]` of a sequence annotation, and `(str, str)` when a `dict`
has no args — unsubscripted aliases are represented by their defaulted
forms), and pydantic model classes with their name and declared fields in
order. -/
inductive Ty where
  | str
  | int
  | float
  | bool
  | any
  | other (typeName : String)
  | list (elem : Ty)
  | tup (elem : Ty)
  | set (elem : Ty)
  | dict (key val : Ty)
  | model (name : String) (fields : List (String × Ty))

/-- Synthesized Python values: scalars, lists, tuples, sets (represented
by their member list in insertion order), dicts (entry list), and model
example objects (string-keyed dicts built by `model_to_json`'s loop;
kept as a separate constructor so shape claims can tell a mapping-typed
field from a nested model). `float` carries the integral part only —
`0.0` is the only float the synthesizer ever produces. -/
inductive Value where
  | str (s : String)
  | int (n : Int)
  | float (z : Int)
  | bool (b : Bool)
  | list (elems : List Value)
  | tup (elems : List Value)
  | set (elems : List Value)
  | dict (entries : List (Value × Value))
  | obj (fields : List (String × Value))

mutual

/-- Structural equality of synthesized values.  It agrees with Python
`==` on every comparison the synthesizer actually performs: the two
compared values are either results of identical pure calls (hence
structurally identical) or two strings, so Python's cross-type numeric
equalities (`0 == 0.0`, `True == 1`) never arise. -/
def vbeq : Value → Value → Bool
  | .str a, .str b => a == b
  | .int a, .int b => a == b
  | .float a, .float b => a == b
  | .bool a, .bool b => a == b
  | .list a, .list b => vbeqList a b
  | .tup a, .tup b => vbeqList a b
  | .set a, .set b => vbeqList a b
  | .dict a, .dict b => vbeqEntries a b
  | .obj a, .obj b => vbeqFields a b
  | _, _ => false
termination_by structural a _ => a

def vbeqList : List Value → List Value → Bool
  | [], [] => true
  | a :: as, b :: bs => vbeq a b && vbeqList as bs
  | _, _ => false
termination_by structural a _ => a

def vbeqEntries : List (Value × Value) → List (Value × Value) → Bool
  | [], [] => true
  | a :: as, b :: bs =>
      vbeq a.1 b.1 && vbeq a.2 b.2 && vbeqEntries as bs
  | _, _ => false
termination_by structural a _ => a

def vbeqFields : List (String × Value) → List (String × Value) → Bool
  | [], [] => true
  | a :: as, b :: bs =>
      a.1 == b.1 && vbeq a.2 b.2 && vbeqFields as bs
  | _, _ => false
termination_by structural a _ => a

end

mutual

/-- Whether a synthesized value is hashable in Python (usable as a dict
key or a set member): scalars, and tuples of hashables, are; lists, sets,
dicts and model objects are not. -/
def hashable : Value → Bool
  | .str _ => true
  | .int _ => true
  | .float _ => true
  | .bool _ => true
  | .tup vs => hashableList vs
  | .list _ => false
  | .set _ => false
  | .dict _ => false
  | .obj _ => false

def hashableList : List Value → Bool
  | [] => true
  | v :: vs => hashable v && hashableList vs

end

/-! ## The leaf heuristic `_example_scalar` -/

/-- `_example_scalar(py_type, field_name, model_name)` from
client_util.py (lines 62–95), with `datetime.date.today()` passed in as
`today` and the per-call `random.Random(seed_basis)` draws abstracted by
`R`.  Each call makes at most one draw, always seeded from
`seed_basis modelName fieldName`. -/
def example_scalar (R : PyRandom) (today : Date) (pyType : Ty)
    (fieldName modelName : String) : Value :=
  let lname := strLower fieldName
  let sb := seed_basis modelName fieldName
  if strContains lname "date" then
    Value.str (isoFormat (addDays today (R.randint sb 1 180)))
  else if strContains lname "time" then
    let minutes := R.randint sb 0 (23 * 60 + 59)
    Value.str (zfill 2 (minutes / 60) ++ ":" ++ zfill 2 (minutes % 60))
  else if strContains lname "name" then
    Value.str (modelName ++ " " ++ pyTitle (underscoreToSpace fieldName))
  else if strEndsWith lname "id" || lname == "id" || strEndsWith lname "_id" then
    Value.str (strLower modelName ++ "_" ++ strLower fieldName ++ "_" ++
      toString (R.randint sb 1000 9999))
  else
    match pyType with
    | .str => Value.str (modelName ++ " " ++ pyTitle (underscoreToSpace fieldName))
    | .any => Value.str (modelName ++ " " ++ pyTitle (underscoreToSpace fieldName))
    | .int => Value.int 0
    | .float => Value.float 0
    | .bool => Value.bool true
    | _ => Value.str (fieldName ++ "_value")

/-! ## The recursive synthesizer `_example_for_type` -/

/-- Lines 106–107 of client_util.py: if both elements of a synthesized
sequence are strings and equal, the second becomes the first plus a
literal `" 2"`; otherwise the second is returned unmodified. -/
def dedupSecond (first second : Value) : Value :=
  match first, second with
  | .str a, .str b => if a == b then Value.str (a ++ " 2") else Value.str b
  | _, _ => second

/-- Python `set([first, second])`: the member list after hash-based
deduplication, in insertion order. -/
def setMk (first second : Value) : List Value :=
  if vbeq first second then [first] else [first, second]

/-- How `json.dumps` renders a Python dict key: strings verbatim, and
`int` / `float` / `bool` keys coerced to their JSON scalar spelling;
every other key type makes `json.dumps` raise
`TypeError: keys must be str, int, float, bool or None, not ...`. -/
def jsonKeyStr : Value → Except String String
  | .str s => .ok s
  | .int n => .ok (toString n)
  | .float z => .ok (toString z ++ ".0")
  | .bool b => .ok (if b then "true" else "false")
  | _ => .error "keys must be str, int, float, bool or None"

mutual

/-- Denotation of `json.loads(json.dumps(v))`, the round trip performed
by `_example_for_type` on every nested model (line 122): strings and
scalars survive unchanged, tuples come back as lists, dict keys come
back as their rendered strings, sets make `json.dumps` raise `TypeError`,
and model objects come back as the same string-keyed mapping. -/
def jsonRoundtrip : Value → Except String Value
  | .str s => .ok (.str s)
  | .int n => .ok (.int n)
  | .float z => .ok (.float z)
  | .bool b => .ok (.bool b)
  | .list vs => do .ok (.list (← jsonRoundtripList vs))
  | .tup vs => do .ok (.list (← jsonRoundtripList vs))
  | .set _ => .error "Object of type set is not JSON serializable"
  | .dict es => do .ok (.dict (← jsonRoundtripEntries es))
  | .obj fs => do .ok (.obj (← jsonRoundtripFields fs))

def jsonRoundtripList : List Value → Except String (List Value)
  | [] => .ok []
  | v :: vs => do .ok ((← jsonRoundtrip v) :: (← jsonRoundtripList vs))

def jsonRoundtripEntries :
    List (Value × Value) → Except String (List (Value × Value))
  | [] => .ok []
  | (k, v) :: es => do
      let ks ← jsonKeyStr k
      .ok ((Value.str ks, ← jsonRoundtrip v) :: (← jsonRoundtripEntries es))

def jsonRoundtripFields :
    List (String × Value) → Except String (List (String × Value))
  | [] => .ok []
  | (n, v) :: fs => do .ok ((n, ← jsonRoundtrip v) :: (← jsonRoundtripFields fs))

end

mutual

/-- `_example_for_type(tp, field_name, model_name)` from client_util.py
(lines 98–123).  The `list`/`tuple`/`set` branch synthesizes the element
type twice under the singular field name and deduplicates string pairs;
`set(seq)` additionally requires hashable members.  The `dict` branch
synthesizes the key under the fixed name `"key"` and the value under
`fieldName ++ "_value"`, and dict construction requires a hashable key.
The model branch is `json.loads(model_to_json(tp))`: `model_to_json`'s
availability guard can never fire (see `isinstanceType` below), so this
is the field loop followed by the dump/load round trip. -/
def example_for_type (R : PyRandom) (today : Date) :
    Ty → String → String → Except String Value
  | Ty.list elem, fieldName, modelName => do
      let singular := pySingular fieldName
      let first ← example_for_type R today elem singular modelName
      let second ← example_for_type R today elem singular modelName
      .ok (Value.list [first, dedupSecond first second])
  | Ty.tup elem, fieldName, modelName => do
      let singular := pySingular fieldName
      let first ← example_for_type R today elem singular modelName
      let second ← example_for_type R today elem singular modelName
      .ok (Value.tup [first, dedupSecond first second])
  | Ty.set elem, fieldName, modelName => do
      let singular := pySingular fieldName
      let first ← example_for_type R today elem singular modelName
      let second ← example_for_type R today elem singular modelName
      let second' := dedupSecond first second
      if hashable first && hashable second' then
        .ok (Value.set (setMk first second'))
      else
        .error "unhashable type"
  | Ty.dict keyTy valTy, fieldName, modelName => do
      let k ← example_for_type R today keyTy "key" modelName
      let v ← example_for_type R today valTy (fieldName ++ "_value") modelName
      if hashable k then
        .ok (Value.dict [(k, v)])
      else
        .error "unhashable type"
  | Ty.model name fields, _, _ => do
      let data ← exampleFieldsData R today name fields
      jsonRoundtrip (Value.obj data)
  | tp, fieldName, modelName => .ok (example_scalar R today tp fieldName modelName)

/-- The `data` dict built by `model_to_json`'s loop over
`model_cls.model_fields` (lines 134–136): each declared field, in order,
is synthesized under its own name and the model's class name. -/
def exampleFieldsData (R : PyRandom) (today : Date) (modelName : String) :
    List (String × Ty) → Except String (List (String × Value))
  | [] => .ok []
  | (name, tp) :: rest => do
      let v ← example_for_type R today tp name modelName
      .ok ((name, v) :: (← exampleFieldsData R today modelName rest))

end

/-! ## `json.dumps(data, indent=2)` -/

/-- `n` spaces. -/
def spaces (n : Nat) : String := String.mk (List.replicate n ' ')

/-- Lowercase hexadecimal digit. -/
def hexDigit (n : Nat) : Char :=
  if n < 10 then Char.ofNat (48 + n) else Char.ofNat (87 + n)

/-- Four-digit lowercase hexadecimal rendering. -/
def hex4 (n : Nat) : String :=
  String.mk [hexDigit (n / 4096 % 16), hexDigit (n / 256 % 16),
             hexDigit (n / 16 % 16), hexDigit (n % 16)]

/-- JSON string escaping as done by `json.dumps` with its default
`ensure_ascii=True`. -/
def jsonEscapeChar (c : Char) : String :=
  if c = '"' then "\\\""
  else if c = '\\' then "\\\\"
  else if c = '\n' then "\\n"
  else if c = '\t' then "\\t"
  else if c = '\r' then "\\r"
  else if c.toNat = 8 then "\\b"
  else if c.toNat = 12 then "\\f"
  else if c.toNat < 32 then "\\u" ++ hex4 c.toNat
  else if c.toNat < 127 then String.mk [c]
  else if c.toNat < 65536 then "\\u" ++ hex4 c.toNat
  else
    let v := c.toNat - 65536
    "\\u" ++ hex4 (55296 + v / 1024) ++ "\\u" ++ hex4 (56320 + v % 1024)

/-- Escape a whole string for a JSON string literal. -/
def jsonEscape (s : String) : String :=
  String.join (s.toList.map jsonEscapeChar)

mutual

/-- `json.dumps(v, indent=2)` rendered at nesting level `level` (the
enclosing indentation is `2*level` spaces): the format CPython produces —
`", "`-free item separators followed by newline-and-indent, `": "` key
separator, empty containers rendered inline.  Sets raise `TypeError`. -/
def dumpsVal (level : Nat) : Value → Except String String
  | .str s => .ok ("\"" ++ jsonEscape s ++ "\"")
  | .int n => .ok (toString n)
  | .float z => .ok (toString z ++ ".0")
  | .bool b => .ok (if b then "true" else "false")
  | .set _ => .error "Object of type set is not JSON serializable"
  | .list vs =>
      match vs with
      | [] => .ok "[]"
      | _ => do
          let body ← dumpsItems (level + 1) vs
          .ok ("[\n" ++ body ++ "\n" ++ spaces (2 * level) ++ "]")
  | .tup vs =>
      match vs with
      | [] => .ok "[]"
      | _ => do
          let body ← dumpsItems (level + 1) vs
          .ok ("[\n" ++ body ++ "\n" ++ spaces (2 * level) ++ "]")
  | .dict es =>
      match es with
      | [] => .ok "\x7b\x7d"
      | _ => do
          let body ← dumpsEntries (level + 1) es
          .ok ("\x7b\n" ++ body ++ "\n" ++ spaces (2 * level) ++ "\x7d")
  | .obj fs =>
      match fs with
      | [] => .ok "\x7b\x7d"
      | _ => do
          let body ← dumpsFields (level + 1) fs
          .ok ("\x7b\n" ++ body ++ "\n" ++ spaces (2 * level) ++ "\x7d")

/-- Array items, one per line at the given level, comma-separated. -/
def dumpsItems (level : Nat) : List Value → Except String String
  | [] => .ok ""
  | [v] => do .ok (spaces (2 * level) ++ (← dumpsVal level v))
  | v :: vs => do
      .ok (spaces (2 * level) ++ (← dumpsVal level v) ++ ",\n" ++
        (← dumpsItems level vs))

/-- Dict entries: each key rendered by `jsonKeyStr` then written as a
JSON string literal. -/
def dumpsEntries (level : Nat) : List (Value × Value) → Except String String
  | [] => .ok ""
  | [(k, v)] => do
      .ok (spaces (2 * level) ++ "\"" ++ jsonEscape (← jsonKeyStr k) ++
        "\": " ++ (← dumpsVal level v))
  | (k, v) :: es => do
      .ok (spaces (2 * level) ++ "\"" ++ jsonEscape (← jsonKeyStr k) ++
        "\": " ++ (← dumpsVal level v) ++ ",\n" ++ (← dumpsEntries level es))

/-- Model-object fields (string keys). -/
def dumpsFields (level : Nat) : List (String × Value) → Except String String
  | [] => .ok ""
  | [(n, v)] => do
      .ok (spaces (2 * level) ++ "\"" ++ jsonEscape n ++ "\": " ++
        (← dumpsVal level v))
  | (n, v) :: fs => do
      .ok (spaces (2 * level) ++ "\"" ++ jsonEscape n ++ "\": " ++
        (← dumpsVal level v) ++ ",\n" ++ (← dumpsFields level fs))

end

/-! ## `model_to_json` and the pydantic availability guard -/

/-- The class object bound to the name `BaseModel` in client_util.py:
pydantic's `BaseModel` when the guarded import succeeds (lines 8–9), the
built-in `object` when pydantic is absent (lines 10–11). -/
inductive BaseModelBinding where
  | pydanticBaseModel
  | pyObject

/-- Lines 8–11 of client_util.py: the defensive import. -/
def importedBaseModel (pydanticAvailable : Bool) : BaseModelBinding :=
  if pydanticAvailable then .pydanticBaseModel else .pyObject

/-- `isinstance(cls, type)` for the class object bound to `BaseModel`.
Both pydantic's `BaseModel` and the fallback `object` are classes, i.e.
instances of `type`, so this is `True` in both worlds — which is what
line 132's guard `not isinstance(BaseModel, type)` actually tests. -/
def isinstanceType : BaseModelBinding → Bool
  | .pydanticBaseModel => true
  | .pyObject => true

/-- `model_to_json(model_cls)` from client_util.py (lines 126–137): the
guard on line 132, then the field loop building `data`, then
`json.dumps(data, indent=2)`. -/
def model_to_json (pydanticAvailable : Bool) (R : PyRandom) (today : Date)
    (modelName : String) (fields : List (String × Ty)) : Except String String :=
  if !(isinstanceType (importedBaseModel pydanticAvailable)) then
    .error "pydantic BaseModel not available; install pydantic to use model_to_json"
  else do
    let data ← exampleFieldsData R today modelName fields
    dumpsVal 0 (Value.obj data)

/-! ## Concrete schemas from the example scripts -/

/-- The `CalendarEvent` model of 2-structured.py (lines 32–35):
`name: str`, `date: str`, `participants: list[str]`. -/
def calendarEventFields : List (String × Ty) :=
  [("name", Ty.str), ("date", Ty.str), ("participants", Ty.list Ty.str)]

/-- A concrete current date used by witnesses. -/
def d0 : Date := ⟨2026, 10, 12⟩

/-! ## Shape measures for the round-trip claim -/

mutual

/-- Nesting depth of a type expression. -/
def tyDepth : Ty → Nat
  | .list e => 1 + tyDepth e
  | .tup e => 1 + tyDepth e
  | .set e => 1 + tyDepth e
  | .dict k v => 1 + max (tyDepth k) (tyDepth v)
  | .model _ fs => 1 + tyFieldsDepth fs
  | _ => 0

/-- Greatest field-type depth of a model's declared fields. -/
def tyFieldsDepth : List (String × Ty) → Nat
  | [] => 0
  | f :: fs => max (tyDepth f.2) (tyFieldsDepth fs)

end

mutual

/-- Nesting depth of a synthesized value. -/
def valDepth : Value → Nat
  | .str _ => 0
  | .int _ => 0
  | .float _ => 0
  | .bool _ => 0
  | .list vs => 1 + valDepthList vs
  | .tup vs => 1 + valDepthList vs
  | .set vs => 1 + valDepthList vs
  | .dict es => 1 + valDepthEntries es
  | .obj fs => 1 + valDepthFields fs

def valDepthList : List Value → Nat
  | [] => 0
  | v :: vs => max (valDepth v) (valDepthList vs)

def valDepthEntries : List (Value × Value) → Nat
  | [] => 0
  | e :: es => max (max (valDepth e.1) (valDepth e.2)) (valDepthEntries es)

def valDepthFields : List (String × Value) → Nat
  | [] => 0
  | f :: fs => max (valDepth f.2) (valDepthFields fs)

end

mutual

/-- The arity conditions of the round-trip shape claim, on the output
value: every list or tuple node has exactly 2 elements, every set node
has 1 or 2 members (Python's `set` deduplicates the pair), every dict
node has exactly 1 entry; model objects keep their declared field
count, which the claim does not constrain. -/
def arityOk : Value → Bool
  | .str _ => true
  | .int _ => true
  | .float _ => true
  | .bool _ => true
  | .list vs => vs.length == 2 && arityOkList vs
  | .tup vs => vs.length == 2 && arityOkList vs
  | .set vs => (vs.length == 1 || vs.length == 2) && arityOkList vs
  | .dict es => es.length == 1 && arityOkEntries es
  | .obj fs => arityOkFields fs

def arityOkList : List Value → Bool
  | [] => true
  | v :: vs => arityOk v && arityOkList vs

def arityOkEntries : List (Value × Value) → Bool
  | [] => true
  | e :: es => arityOk e.1 && arityOk e.2 && arityOkEntries es

def arityOkFields : List (String × Value) → Bool
  | [] => true
  | f :: fs => arityOk f.2 && arityOkFields fs

end

/-! # Theorems -/

/-! ## Calendar facts -/

theorem one_le_daysInMonth (y m : Nat) : 1 ≤ daysInMonth y m := by
  unfold daysInMonth
  split
  · split <;> omega
  · split <;> omega

theorem validDate_succ {d : Date} (h : ValidDate d) : ValidDate (succDate d) := by
  obtain ⟨y, m, dd⟩ := d
  obtain ⟨h1, h2, h3, h4, h5⟩ := h
  dsimp only at h1 h2 h3 h4 h5
  unfold succDate
  dsimp only
  split
  · exact ⟨h1, h2, h3, (by omega : 1 ≤ dd + 1), (by omega : dd + 1 ≤ daysInMonth y m)⟩
  · split
    · exact ⟨h1, (by omega : 1 ≤ m + 1), (by omega : m + 1 ≤ 12), le_refl 1,
        one_le_daysInMonth y (m + 1)⟩
    · exact ⟨(by omega : 1 ≤ y + 1), le_refl 1, (by omega : (1 : Nat) ≤ 12), le_refl 1,
        one_le_daysInMonth (y + 1) 1⟩

theorem validDate_addDays {d : Date} (h : ValidDate d) (n : Nat) :
    ValidDate (addDays d n) := by
  induction n with
  | zero => exact h
  | succ n ih => exact validDate_succ ih

theorem dateLt_succ (d : Date) : dateLt d (succDate d) := by
  obtain ⟨y, m, dd⟩ := d
  unfold succDate
  dsimp only
  split
  · exact Or.inr ⟨rfl, Or.inr ⟨rfl, Nat.lt_succ_self dd⟩⟩
  · split
    · exact Or.inr ⟨rfl, Or.inl (Nat.lt_succ_self m)⟩
    · exact Or.inl (Nat.lt_succ_self y)

theorem dateLt_trans {a b c : Date} (h1 : dateLt a b) (h2 : dateLt b c) :
    dateLt a c := by
  obtain ⟨y1, m1, d1⟩ := a
  obtain ⟨y2, m2, d2⟩ := b
  obtain ⟨y3, m3, d3⟩ := c
  unfold dateLt at *
  dsimp only at *
  omega

theorem dateLt_addDays (d : Date) {n : Nat} (h : 1 ≤ n) :
    dateLt d (addDays d n) := by
  induction n with
  | zero => omega
  | succ n ih =>
    rcases Nat.eq_zero_or_pos n with h0 | h0
    · subst h0; exact dateLt_succ d
    · exact dateLt_trans (ih h0) (dateLt_succ (addDays d n))

/-- Characterization of `rstripS` (Python `s.rstrip("s")`): the original
string is the stripped result followed by some run of `'s'` characters,
and the stripped result does not itself end in `'s'`. -/
theorem rstripS_spec (f : String) :
    (∃ k, f.toList = (rstripS f).toList ++ List.replicate k 's') ∧
    ∀ c, (rstripS f).toList.getLast? = some c → c ≠ 's' := by
  constructor
  · refine ⟨(f.toList.reverse.takeWhile (fun c => c == 's')).length, ?_⟩
    have h1 := List.takeWhile_append_dropWhile (fun c => c == 's') f.toList.reverse
    have h2 : f.toList.reverse.takeWhile (fun c => c == 's') =
        List.replicate (f.toList.reverse.takeWhile (fun c => c == 's')).length 's' :=
      List.eq_replicate_of_mem (fun b hb => by
        have hp := List.mem_takeWhile_imp hb
        simpa using hp)
    show f.toList =
      (f.toList.reverse.dropWhile (fun c => c == 's')).reverse ++ _
    calc f.toList = f.toList.reverse.reverse := (List.reverse_reverse _).symm
      _ = (f.toList.reverse.takeWhile (fun c => c == 's') ++
            f.toList.reverse.dropWhile (fun c => c == 's')).reverse := by rw [h1]
      _ = (f.toList.reverse.dropWhile (fun c => c == 's')).reverse ++
            (f.toList.reverse.takeWhile (fun c => c == 's')).reverse := by
              rw [List.reverse_append]
      _ = (f.toList.reverse.dropWhile (fun c => c == 's')).reverse ++
            List.replicate (f.toList.reverse.takeWhile (fun c => c == 's')).length 's' := by
              rw [← List.reverse_replicate, ← h2]
  · intro c hc
    have hg : (rstripS f).toList.getLast? =
        (f.toList.reverse.dropWhile (fun c => c == 's')).head? := by
      show ((f.toList.reverse.dropWhile (fun c => c == 's')).reverse).getLast? = _
      exact List.getLast?_reverse _
    rw [hg] at hc
    have h3 := List.head?_dropWhile_not (fun c => c == 's') f.toList.reverse
    rw [hc] at h3
    simpa using h3

/-- The leaf heuristic always produces a scalar: depth 0 and trivially
well-shaped. -/
theorem example_scalar_shape (R : PyRandom) (today : Date) (t : Ty)
    (f m : String) :
    valDepth (example_scalar R today t f m) = 0 ∧
    arityOk (example_scalar R today t f m) = true := by
  simp only [example_scalar]
  constructor
  · repeat' split
    all_goals rfl
  · repeat' split
    all_goals rfl

/-- The duplication rule preserves depth and well-shapedness. -/
theorem dedupSecond_self_shape (u : Value) :
    valDepth (dedupSecond u u) = valDepth u ∧
    (arityOk u = true → arityOk (dedupSecond u u) = true) := by
  cases u with
  | str a => simp [dedupSecond, valDepth, arityOk]
  | int n => exact ⟨rfl, fun h => h⟩
  | float z => exact ⟨rfl, fun h => h⟩
  | bool b => exact ⟨rfl, fun h => h⟩
  | list vs => exact ⟨rfl, fun h => h⟩
  | tup vs => exact ⟨rfl, fun h => h⟩
  | set vs => exact ⟨rfl, fun h => h⟩
  | dict es => exact ⟨rfl, fun h => h⟩
  | obj fs => exact ⟨rfl, fun h => h⟩

/-- A dict key that `json.dumps` accepts is a scalar: depth 0. -/
theorem jsonKeyStr_shape (k : Value) :
    ∀ ks, jsonKeyStr k = .ok ks → valDepth k = 0 := by
  cases k with
  | str s => intro _ _; rfl
  | int n => intro _ _; rfl
  | float z => intro _ _; rfl
  | bool b => intro _ _; rfl
  | list vs => intro ks h; exact Except.noConfusion h
  | tup vs => intro ks h; exact Except.noConfusion h
  | set vs => intro ks h; exact Except.noConfusion h
  | dict es => intro ks h; exact Except.noConfusion h
  | obj fs => intro ks h; exact Except.noConfusion h

mutual

/-- The dump/load round trip preserves depth and well-shapedness. -/
theorem rt_shape (v : Value) : ∀ w, jsonRoundtrip v = .ok w →
    valDepth w = valDepth v ∧ (arityOk v = true → arityOk w = true) := by
  cases v with
  | str s =>
      intro w h
      have h' : (Except.ok (Value.str s) : Except String Value) = .ok w := h
      injection h' with h''
      subst h''
      exact ⟨rfl, fun h => h⟩
  | int n =>
      intro w h
      have h' : (Except.ok (Value.int n) : Except String Value) = .ok w := h
      injection h' with h''
      subst h''
      exact ⟨rfl, fun h => h⟩
  | float z =>
      intro w h
      have h' : (Except.ok (Value.float z) : Except String Value) = .ok w := h
      injection h' with h''
      subst h''
      exact ⟨rfl, fun h => h⟩
  | bool b =>
      intro w h
      have h' : (Except.ok (Value.bool b) : Except String Value) = .ok w := h
      injection h' with h''
      subst h''
      exact ⟨rfl, fun h => h⟩
  | set vs =>
      intro w h
      exact Except.noConfusion h
  | list vs =>
      intro w h
      simp only [jsonRoundtrip] at h
      cases hl : jsonRoundtripList vs with
      | error e => rw [hl] at h; exact Except.noConfusion h
      | ok ws =>
          rw [hl] at h
          have h' : (Except.ok (Value.list ws) : Except String Value) = .ok w := h
          injection h' with h''
          subst h''
          obtain ⟨hd, hlen, ha⟩ := rt_shape_list vs ws hl
          refine ⟨by simp [valDepth, hd], ?_⟩
          intro hok
          simp only [arityOk, Bool.and_eq_true, beq_iff_eq] at hok ⊢
          exact ⟨hlen ▸ hok.1, ha hok.2⟩
  | tup vs =>
      intro w h
      simp only [jsonRoundtrip] at h
      cases hl : jsonRoundtripList vs with
      | error e => rw [hl] at h; exact Except.noConfusion h
      | ok ws =>
          rw [hl] at h
          have h' : (Except.ok (Value.list ws) : Except String Value) = .ok w := h
          injection h' with h''
          subst h''
          obtain ⟨hd, hlen, ha⟩ := rt_shape_list vs ws hl
          refine ⟨by simp [valDepth, hd], ?_⟩
          intro hok
          simp only [arityOk, Bool.and_eq_true, beq_iff_eq] at hok ⊢
          exact ⟨hlen ▸ hok.1, ha hok.2⟩
  | dict es =>
      intro w h
      simp only [jsonRoundtrip] at h
      cases hl : jsonRoundtripEntries es with
      | error e => rw [hl] at h; exact Except.noConfusion h
      | ok es' =>
          rw [hl] at h
          have h' : (Except.ok (Value.dict es') : Except String Value) = .ok w := h
          injection h' with h''
          subst h''
          obtain ⟨hd, hlen, ha⟩ := rt_shape_entries es es' hl
          refine ⟨by simp [valDepth, hd], ?_⟩
          intro hok
          simp only [arityOk, Bool.and_eq_true, beq_iff_eq] at hok ⊢
          exact ⟨hlen ▸ hok.1, ha hok.2⟩
  | obj fs =>
      intro w h
      simp only [jsonRoundtrip] at h
      cases hl : jsonRoundtripFields fs with
      | error e => rw [hl] at h; exact Except.noConfusion h
      | ok fs' =>
          rw [hl] at h
          have h' : (Except.ok (Value.obj fs') : Except String Value) = .ok w := h
          injection h' with h''
          subst h''
          obtain ⟨hd, ha⟩ := rt_shape_fields fs fs' hl
          exact ⟨by simp [valDepth, hd], fun hok => ha hok⟩

theorem rt_shape_list (vs : List Value) :
    ∀ ws, jsonRoundtripList vs = .ok ws →
      valDepthList ws = valDepthList vs ∧ ws.length = vs.length ∧
      (arityOkList vs = true → arityOkList ws = true) := by
  cases vs with
  | nil =>
      intro ws h
      have h' : (Except.ok ([] : List Value) :
          Except String (List Value)) = .ok ws := h
      injection h' with h''
      subst h''
      exact ⟨rfl, rfl, fun h => h⟩
  | cons v vs =>
      intro ws h
      simp only [jsonRoundtripList] at h
      cases hv : jsonRoundtrip v with
      | error e => rw [hv] at h; exact Except.noConfusion h
      | ok w =>
          rw [hv] at h
          cases hl : jsonRoundtripList vs with
          | error e =>
              rw [hl] at h
              exact Except.noConfusion h
          | ok ws' =>
              rw [hl] at h
              have h' : (Except.ok (w :: ws') :
                  Except String (List Value)) = .ok ws := h
              injection h' with h''
              subst h''
              obtain ⟨hd1, ha1⟩ := rt_shape v w hv
              obtain ⟨hd2, hlen2, ha2⟩ := rt_shape_list vs ws' hl
              refine ⟨by simp [valDepthList, hd1, hd2], by simp [hlen2], ?_⟩
              intro hok
              simp only [arityOkList, Bool.and_eq_true] at hok ⊢
              exact ⟨ha1 hok.1, ha2 hok.2⟩

theorem rt_shape_entries (es : List (Value × Value)) :
    ∀ es', jsonRoundtripEntries es = .ok es' →
      valDepthEntries es' = valDepthEntries es ∧ es'.length = es.length ∧
      (arityOkEntries es = true → arityOkEntries es' = true) := by
  cases es with
  | nil =>
      intro es' h
      have h' : (Except.ok ([] : List (Value × Value)) :
          Except String (List (Value × Value))) = .ok es' := h
      injection h' with h''
      subst h''
      exact ⟨rfl, rfl, fun h => h⟩
  | cons e es =>
      intro es' h
      simp only [jsonRoundtripEntries] at h
      cases hk : jsonKeyStr e.1 with
      | error msg => rw [hk] at h; exact Except.noConfusion h
      | ok ks =>
          rw [hk] at h
          cases hv : jsonRoundtrip e.2 with
          | error msg =>
              rw [hv] at h
              exact Except.noConfusion h
          | ok w =>
              rw [hv] at h
              cases hl : jsonRoundtripEntries es with
              | error msg =>
                  rw [hl] at h
                  exact Except.noConfusion h
              | ok es'' =>
                  rw [hl] at h
                  have h' : (Except.ok ((Value.str ks, w) :: es'') :
                      Except String (List (Value × Value))) = .ok es' := h
                  injection h' with h''
                  subst h''
                  obtain ⟨hd1, ha1⟩ := rt_shape e.2 w hv
                  obtain ⟨hd2, hlen2, ha2⟩ := rt_shape_entries es es'' hl
                  have hk0 : valDepth e.1 = 0 := jsonKeyStr_shape e.1 ks hk
                  refine ⟨?_, by simp [hlen2], ?_⟩
                  · simp [valDepthEntries, valDepth, hd1, hd2, hk0]
                  · intro hok
                    simp only [arityOkEntries, Bool.and_eq_true] at hok ⊢
                    obtain ⟨⟨hk1, hv1⟩, hrest⟩ := hok
                    exact ⟨⟨rfl, ha1 hv1⟩, ha2 hrest⟩

theorem rt_shape_fields (fs : List (String × Value)) :
    ∀ fs', jsonRoundtripFields fs = .ok fs' →
      valDepthFields fs' = valDepthFields fs ∧
      (arityOkFields fs = true → arityOkFields fs' = true) := by
  cases fs with
  | nil =>
      intro fs' h
      have h' : (Except.ok ([] : List (String × Value)) :
          Except String (List (String × Value))) = .ok fs' := h
      injection h' with h''
      subst h''
      exact ⟨rfl, fun h => h⟩
  | cons f fs =>
      intro fs' h
      simp only [jsonRoundtripFields] at h
      cases hv : jsonRoundtrip f.2 with
      | error msg => rw [hv] at h; exact Except.noConfusion h
      | ok w =>
          rw [hv] at h
          cases hl : jsonRoundtripFields fs with
          | error msg =>
              rw [hl] at h
              exact Except.noConfusion h
          | ok fs'' =>
              rw [hl] at h
              have h' : (Except.ok ((f.1, w) :: fs'') :
                  Except String (List (String × Value))) = .ok fs' := h
              injection h' with h''
              subst h''
              obtain ⟨hd1, ha1⟩ := rt_shape f.2 w hv
              obtain ⟨hd2, ha2⟩ := rt_shape_fields fs fs'' hl
              refine ⟨by simp [valDepthFields, hd1, hd2], ?_⟩
              intro hok
              simp only [arityOkFields, Bool.and_eq_true] at hok ⊢
              exact ⟨ha1 hok.1, ha2 hok.2⟩

end

mutual

/-- Whenever synthesis succeeds, the output value is well-shaped and its
nesting depth equals the type expression's nesting depth. -/
theorem shape_t (t : Ty) :
    ∀ (R : PyRandom) (today : Date) (f m : String) (v : Value),
    example_for_type R today t f m = .ok v →
    arityOk v = true ∧ valDepth v = tyDepth t := by
  cases t with
  | str =>
      intro R today f m v h
      have h' : (Except.ok (example_scalar R today Ty.str f m) :
          Except String Value) = .ok v := h
      injection h' with h''
      subst h''
      obtain ⟨hd, ha⟩ := example_scalar_shape R today Ty.str f m
      exact ⟨ha, by rw [hd]; rfl⟩
  | int =>
      intro R today f m v h
      have h' : (Except.ok (example_scalar R today Ty.int f m) :
          Except String Value) = .ok v := h
      injection h' with h''
      subst h''
      obtain ⟨hd, ha⟩ := example_scalar_shape R today Ty.int f m
      exact ⟨ha, by rw [hd]; rfl⟩
  | float =>
      intro R today f m v h
      have h' : (Except.ok (example_scalar R today Ty.float f m) :
          Except String Value) = .ok v := h
      injection h' with h''
      subst h''
      obtain ⟨hd, ha⟩ := example_scalar_shape R today Ty.float f m
      exact ⟨ha, by rw [hd]; rfl⟩
  | bool =>
      intro R today f m v h
      have h' : (Except.ok (example_scalar R today Ty.bool f m) :
          Except String Value) = .ok v := h
      injection h' with h''
      subst h''
      obtain ⟨hd, ha⟩ := example_scalar_shape R today Ty.bool f m
      exact ⟨ha, by rw [hd]; rfl⟩
  | any =>
      intro R today f m v h
      have h' : (Except.ok (example_scalar R today Ty.any f m) :
          Except String Value) = .ok v := h
      injection h' with h''
      subst h''
      obtain ⟨hd, ha⟩ := example_scalar_shape R today Ty.any f m
      exact ⟨ha, by rw [hd]; rfl⟩
  | other s =>
      intro R today f m v h
      have h' : (Except.ok (example_scalar R today (Ty.other s) f m) :
          Except String Value) = .ok v := h
      injection h' with h''
      subst h''
      obtain ⟨hd, ha⟩ := example_scalar_shape R today (Ty.other s) f m
      exact ⟨ha, by rw [hd]; rfl⟩
  | list e =>
      intro R today f m v h
      simp only [example_for_type] at h
      cases he : example_for_type R today e (pySingular f) m with
      | error msg => rw [he] at h; exact Except.noConfusion h
      | ok u =>
          rw [he] at h
          have h' : (Except.ok (Value.list [u, dedupSecond u u]) :
              Except String Value) = .ok v := h
          injection h' with h''
          subst h''
          obtain ⟨ha, hd⟩ := shape_t e R today (pySingular f) m u he
          obtain ⟨hdd, hda⟩ := dedupSecond_self_shape u
          constructor
          · simp [arityOk, arityOkList, ha, hda ha]
          · simp [valDepth, valDepthList, hdd, hd, Nat.max_zero, Nat.max_self,
              tyDepth]
  | tup e =>
      intro R today f m v h
      simp only [example_for_type] at h
      cases he : example_for_type R today e (pySingular f) m with
      | error msg => rw [he] at h; exact Except.noConfusion h
      | ok u =>
          rw [he] at h
          have h' : (Except.ok (Value.tup [u, dedupSecond u u]) :
              Except String Value) = .ok v := h
          injection h' with h''
          subst h''
          obtain ⟨ha, hd⟩ := shape_t e R today (pySingular f) m u he
          obtain ⟨hdd, hda⟩ := dedupSecond_self_shape u
          constructor
          · simp [arityOk, arityOkList, ha, hda ha]
          · simp [valDepth, valDepthList, hdd, hd, Nat.max_zero, Nat.max_self,
              tyDepth]
  | set e =>
      intro R today f m v h
      simp only [example_for_type] at h
      cases he : example_for_type R today e (pySingular f) m with
      | error msg => rw [he] at h; exact Except.noConfusion h
      | ok u =>
          rw [he] at h
          obtain ⟨ha, hd⟩ := shape_t e R today (pySingular f) m u he
          obtain ⟨hdd, hda⟩ := dedupSecond_self_shape u
          have h2 : (if (hashable u && hashable (dedupSecond u u)) = true then
              (Except.ok (Value.set (setMk u (dedupSecond u u))) :
                Except String Value)
            else Except.error "unhashable type") = Except.ok v := h
          split at h2
          case isTrue hh =>
            injection h2 with h''
            subst h''
            unfold setMk
            split
            · constructor
              · simp [arityOk, arityOkList, ha]
              · simp [valDepth, valDepthList, hd, Nat.max_zero, tyDepth]
            · constructor
              · simp [arityOk, arityOkList, ha, hda ha]
              · simp [valDepth, valDepthList, hdd, hd, Nat.max_zero,
                  Nat.max_self, tyDepth]
          case isFalse hh => exact Except.noConfusion h2
  | dict kt vt =>
      intro R today f m v h
      simp only [example_for_type] at h
      cases hk : example_for_type R today kt "key" m with
      | error msg => rw [hk] at h; exact Except.noConfusion h
      | ok k =>
          rw [hk] at h
          cases hv : example_for_type R today vt (f ++ "_value") m with
          | error msg => rw [hv] at h; exact Except.noConfusion h
          | ok val =>
              rw [hv] at h
              obtain ⟨hka, hkd⟩ := shape_t kt R today "key" m k hk
              obtain ⟨hva, hvd⟩ := shape_t vt R today (f ++ "_value") m val hv
              have h2 : (if hashable k = true then
                  (Except.ok (Value.dict [(k, val)]) : Except String Value)
                else Except.error "unhashable type") = Except.ok v := h
              split at h2
              case isTrue hh =>
                injection h2 with h''
                subst h''
                constructor
                · simp [arityOk, arityOkEntries, hka, hva]
                · simp [valDepth, valDepthEntries, hkd, hvd, Nat.max_zero,
                    tyDepth]
              case isFalse hh => exact Except.noConfusion h2
  | model n fs =>
      intro R today f m v h
      simp only [example_for_type] at h
      cases hdata : exampleFieldsData R today n fs with
      | error msg => rw [hdata] at h; exact Except.noConfusion h
      | ok data =>
          rw [hdata] at h
          have h2 : jsonRoundtrip (Value.obj data) = .ok v := h
          obtain ⟨hfa, hfd⟩ := shape_fields fs R today n data hdata
          obtain ⟨hd, ha⟩ := rt_shape (Value.obj data) v h2
          constructor
          · exact ha (by simpa [arityOk] using hfa)
          · rw [hd]
            simp [valDepth, tyDepth, hfd]

/-- Whenever the field loop succeeds, each synthesized field value is
well-shaped and the greatest value depth equals the greatest declared
field-type depth. -/
theorem shape_fields (fs : List (String × Ty)) :
    ∀ (R : PyRandom) (today : Date) (n : String)
      (data : List (String × Value)),
    exampleFieldsData R today n fs = .ok data →
    arityOkFields data = true ∧ valDepthFields data = tyFieldsDepth fs := by
  cases fs with
  | nil =>
      intro R today n data h
      have h' : (Except.ok ([] : List (String × Value)) :
          Except String (List (String × Value))) = .ok data := h
      injection h' with h''
      subst h''
      exact ⟨rfl, rfl⟩
  | cons ft rest =>
      intro R today n data h
      obtain ⟨fname, ftp⟩ := ft
      simp only [exampleFieldsData] at h
      cases hv : example_for_type R today ftp fname n with
      | error msg => rw [hv] at h; exact Except.noConfusion h
      | ok v =>
          rw [hv] at h
          cases hrest : exampleFieldsData R today n rest with
          | error msg => rw [hrest] at h; exact Except.noConfusion h
          | ok data' =>
              rw [hrest] at h
              have h' : (Except.ok ((fname, v) :: data') :
                  Except String (List (String × Value))) = .ok data := h
              injection h' with h''
              subst h''
              obtain ⟨hva, hvd⟩ := shape_t ftp R today fname n v hv
              obtain ⟨hra, hrd⟩ := shape_fields rest R today n data' hrest
              constructor
              · simp [arityOkFields, hva, hra]
              · simp [valDepthFields, tyFieldsDepth, hvd, hrd]

end

/-! ## Claims -/

/-- C2: the leaf heuristic `_example_scalar` is deterministic for a given
(schemaName, fieldName) pair: it draws only from a source seeded with the
string `"<schemaName>:<fieldName>"`, so any two pseudo-random worlds that
agree on the draws for that one seed give identical outputs — the result
is independent of call order and of any prior global random state, and
two calls with identical inputs (and the same current date) always agree. -/
theorem C2_example_scalar_deterministic (R R' : PyRandom) (today : Date)
    (t : Ty) (fieldName modelName : String)
    (h : ∀ lo hi, R.randint (seed_basis modelName fieldName) lo hi =
      R'.randint (seed_basis modelName fieldName) lo hi) :
    example_scalar R today t fieldName modelName =
      example_scalar R' today t fieldName modelName := by
  unfold example_scalar
  simp only [h]

/-- Witness for C2: `rngLo` and `rngSplit` agree on the seed
`"M:start_date"` (and nowhere else), and the heuristic's outputs for the
field `start_date` of schema `M` coincide. -/
theorem C2_example_scalar_deterministic_witness :
    example_scalar rngLo d0 Ty.str "start_date" "M" =
      example_scalar rngSplit d0 Ty.str "start_date" "M" :=
  C2_example_scalar_deterministic rngLo rngSplit d0 Ty.str "start_date" "M"
    (fun _ _ => rfl)

/-- C7: for every field whose lowercased name contains `"date"`, the leaf
heuristic produces the ISO-8601 rendering of a valid calendar date that
is exactly `k` days after the current date for a pseudo-random draw
`k ∈ [1, 180]` seeded from the schema/field pair — hence strictly after
the current date and at most 180 days out. -/
theorem C7_date_heuristic (R : PyRandom) (today : Date) (t : Ty)
    (f m : String) (hv : ValidDate today)
    (hd : strContains (strLower f) "date" = true) :
    ∃ k, k = R.randint (seed_basis m f) 1 180 ∧ 1 ≤ k ∧ k ≤ 180 ∧
      example_scalar R today t f m = Value.str (isoFormat (addDays today k)) ∧
      ValidDate (addDays today k) ∧ dateLt today (addDays today k) := by
  obtain ⟨h1, h2⟩ := R.randint_mem (seed_basis m f) 1 180 (by omega)
  refine ⟨_, rfl, h1, h2, ?_, validDate_addDays hv _, dateLt_addDays today h1⟩
  unfold example_scalar
  simp only [hd, if_true]

/-- Witness for C7 at the field `date` of schema `M`, with the upper-end
draw and today = 2026-10-12: the output is `"2027-04-10"`, 180 days out. -/
theorem C7_date_heuristic_witness :
    ∃ k, k = rngHi.randint (seed_basis "M" "date") 1 180 ∧ 1 ≤ k ∧ k ≤ 180 ∧
      example_scalar rngHi d0 Ty.str "date" "M" =
        Value.str (isoFormat (addDays d0 k)) ∧
      ValidDate (addDays d0 k) ∧ dateLt d0 (addDays d0 k) :=
  C7_date_heuristic rngHi d0 Ty.str "date" "M" (by decide) (by decide)

/-- C3, counterexample to the claimed half-open range [0, 1439): the code
draws `rng.randint(0, 23*60+59)`, and Python's `randint` is inclusive at
both ends, so minute-of-day 1439 — the string `"23:59"` — is a possible
output: under the valid pseudo-random source `rngHi` the field `time` of
schema `M` yields exactly that, and 1439 does not lie in [0, 1439). -/
theorem C3_minute_range_counterexample :
    example_scalar rngHi d0 Ty.str "time" "M" = Value.str "23:59" ∧
    rngHi.randint (seed_basis "M" "time") 0 (23 * 60 + 59) = 1439 ∧
    ¬ (rngHi.randint (seed_basis "M" "time") 0 (23 * 60 + 59) < 1439) :=
  ⟨rfl, rfl, by decide⟩

/-- C3 as amended: for every field whose lowercased name contains
`"time"` but not `"date"`, the leaf heuristic draws a pseudo-random
minute-of-day from the CLOSED range [0, 1439] (equivalently the
half-open range [0, 1440)), seeded from the schema/field pair, and
formats it as a zero-padded 24-hour `HH:MM` string with hour at most 23
and minute at most 59, each rendered as exactly two characters. -/
theorem C3_time_heuristic (R : PyRandom) (today : Date) (t : Ty)
    (f m : String)
    (hd : strContains (strLower f) "date" = false)
    (ht : strContains (strLower f) "time" = true) :
    ∃ mins, mins = R.randint (seed_basis m f) 0 (23 * 60 + 59) ∧
      mins ≤ 1439 ∧
      example_scalar R today t f m =
        Value.str (zfill 2 (mins / 60) ++ ":" ++ zfill 2 (mins % 60)) ∧
      mins / 60 ≤ 23 ∧ mins % 60 ≤ 59 ∧
      (zfill 2 (mins / 60)).length = 2 ∧ (zfill 2 (mins % 60)).length = 2 := by
  obtain ⟨h1, h2⟩ := R.randint_mem (seed_basis m f) 0 (23 * 60 + 59) (by omega)
  refine ⟨_, rfl, by omega, ?_, by omega, by omega, ?_, ?_⟩
  · unfold example_scalar
    simp [hd, ht]
  · have hh : R.randint (seed_basis m f) 0 (23 * 60 + 59) / 60 ≤ 23 := by omega
    set n := R.randint (seed_basis m f) 0 (23 * 60 + 59) / 60 with hn
    interval_cases n <;> decide
  · have hm : R.randint (seed_basis m f) 0 (23 * 60 + 59) % 60 ≤ 59 := by omega
    set n := R.randint (seed_basis m f) 0 (23 * 60 + 59) % 60 with hn
    interval_cases n <;> decide

/-- Witness for C3's amended theorem at the field `time` of schema `M`
with the lower-end draw: minute 0, rendered `"00:00"`. -/
theorem C3_time_heuristic_witness :
    ∃ mins, mins = rngLo.randint (seed_basis "M" "time") 0 (23 * 60 + 59) ∧
      mins ≤ 1439 ∧
      example_scalar rngLo d0 Ty.str "time" "M" =
        Value.str (zfill 2 (mins / 60) ++ ":" ++ zfill 2 (mins % 60)) ∧
      mins / 60 ≤ 23 ∧ mins % 60 ≤ 59 ∧
      (zfill 2 (mins / 60)).length = 2 ∧ (zfill 2 (mins % 60)).length = 2 :=
  C3_time_heuristic rngLo d0 Ty.str "time" "M" (by decide) (by decide)

/-- C9: in the leaf case the field-name heuristics are applied in
precedence order with first match winning, case-insensitively (via the
lowercased field name): `"date"` before `"time"` before `"name"` before
the id rule (ends with `"id"`, equals `"id"`, or ends with `"_id"`), and
only when none match does the synthesizer dispatch on the declared
scalar kind — String/Any to the titled name string, Integer to 0, Float
to 0.0, Boolean to true, and anything else to `"<fieldName>_value"`. -/
theorem C9_leaf_precedence (R : PyRandom) (today : Date) (t : Ty)
    (f m : String) :
    (strContains (strLower f) "date" = true →
      example_scalar R today t f m =
        Value.str (isoFormat (addDays today (R.randint (seed_basis m f) 1 180)))) ∧
    (strContains (strLower f) "date" = false →
      strContains (strLower f) "time" = true →
      example_scalar R today t f m =
        Value.str (zfill 2 (R.randint (seed_basis m f) 0 (23 * 60 + 59) / 60) ++
          ":" ++ zfill 2 (R.randint (seed_basis m f) 0 (23 * 60 + 59) % 60))) ∧
    (strContains (strLower f) "date" = false →
      strContains (strLower f) "time" = false →
      strContains (strLower f) "name" = true →
      example_scalar R today t f m =
        Value.str (m ++ " " ++ pyTitle (underscoreToSpace f))) ∧
    (strContains (strLower f) "date" = false →
      strContains (strLower f) "time" = false →
      strContains (strLower f) "name" = false →
      (strEndsWith (strLower f) "id" || strLower f == "id" ||
        strEndsWith (strLower f) "_id") = true →
      example_scalar R today t f m =
        Value.str (strLower m ++ "_" ++ strLower f ++ "_" ++
          toString (R.randint (seed_basis m f) 1000 9999))) ∧
    (strContains (strLower f) "date" = false →
      strContains (strLower f) "time" = false →
      strContains (strLower f) "name" = false →
      (strEndsWith (strLower f) "id" || strLower f == "id" ||
        strEndsWith (strLower f) "_id") = false →
      ((t = Ty.str ∨ t = Ty.any) →
        example_scalar R today t f m =
          Value.str (m ++ " " ++ pyTitle (underscoreToSpace f))) ∧
      (t = Ty.int → example_scalar R today t f m = Value.int 0) ∧
      (t = Ty.float → example_scalar R today t f m = Value.float 0) ∧
      (t = Ty.bool → example_scalar R today t f m = Value.bool true) ∧
      (t ≠ Ty.str → t ≠ Ty.any → t ≠ Ty.int → t ≠ Ty.float → t ≠ Ty.bool →
        example_scalar R today t f m = Value.str (f ++ "_value"))) := by
  refine ⟨fun hd => by unfold example_scalar; simp [hd],
    fun hd ht => by unfold example_scalar; simp [hd, ht],
    fun hd ht hn => by unfold example_scalar; simp [hd, ht, hn],
    fun hd ht hn hid => by unfold example_scalar; simp [hd, ht, hn, hid], ?_⟩
  intro hd ht hn hid
  refine ⟨?_, ?_, ?_, ?_, ?_⟩
  · rintro (rfl | rfl) <;> unfold example_scalar <;> simp [hd, ht, hn, hid]
  · rintro rfl; unfold example_scalar; simp [hd, ht, hn, hid]
  · rintro rfl; unfold example_scalar; simp [hd, ht, hn, hid]
  · rintro rfl; unfold example_scalar; simp [hd, ht, hn, hid]
  · intro h1 h2 h3 h4 h5
    cases t with
    | str => exact absurd rfl h1
    | any => exact absurd rfl h2
    | int => exact absurd rfl h3
    | float => exact absurd rfl h4
    | bool => exact absurd rfl h5
    | other s => unfold example_scalar; simp [hd, ht, hn, hid]
    | list e => unfold example_scalar; simp [hd, ht, hn, hid]
    | tup e => unfold example_scalar; simp [hd, ht, hn, hid]
    | set e => unfold example_scalar; simp [hd, ht, hn, hid]
    | dict k v => unfold example_scalar; simp [hd, ht, hn, hid]
    | model n fs => unfold example_scalar; simp [hd, ht, hn, hid]

/-- Witness for C9: the field `x` of schema `M` matches no name
heuristic, and with declared kind Integer the dispatch yields 0. -/
theorem C9_leaf_precedence_witness :
    example_scalar rngLo d0 Ty.int "x" "M" = Value.int 0 :=
  ((C9_leaf_precedence rngLo d0 Ty.int "x" "M").2.2.2.2 (by decide) (by decide)
    (by decide) (by decide)).2.1 rfl

/-- C1 (code bug): the pydantic-absent guard of `model_to_json` can never
fire.  With pydantic absent, the defensive import binds `BaseModel =
object`, and `object` is itself a class — an instance of `type` — so line
132's test `not isinstance(BaseModel, type)` is False in both worlds: the
promised RuntimeError naming pydantic is never raised, `model_to_json`
behaves exactly as when pydantic is present, and on `CalendarEvent` it
produces a complete JSON document instead of failing fast. -/
theorem C1_guard_never_fires :
    (∀ (R : PyRandom) (today : Date) (modelName : String)
      (fields : List (String × Ty)),
      model_to_json false R today modelName fields =
        model_to_json true R today modelName fields) ∧
    model_to_json false rngLo d0 "CalendarEvent" calendarEventFields =
      .ok "\x7b\n  \"name\": \"CalendarEvent Name\",\n  \"date\": \"2026-10-13\",\n  \"participants\": [\n    \"CalendarEvent Participant\",\n    \"CalendarEvent Participant 2\"\n  ]\n\x7d" :=
  ⟨fun _ _ _ _ => rfl, rfl⟩

/-- C10: the example synthesized for a nested-model field depends only on
the nested model class, not on the enclosing field's name or the
enclosing schema's name; it is the parse (`json.loads`, i.e. the
dump/load round trip) of the document `model_to_json` builds for the
nested class, and two fields of the same nested model type but different
names receive identical nested example objects. -/
theorem C10_nested_model_independent :
    (∀ (R : PyRandom) (today : Date) (n : String) (fs : List (String × Ty))
      (f1 m1 f2 m2 : String),
      example_for_type R today (Ty.model n fs) f1 m1 =
        example_for_type R today (Ty.model n fs) f2 m2) ∧
    (∀ (R : PyRandom) (today : Date) (n : String) (fs : List (String × Ty))
      (f m : String),
      example_for_type R today (Ty.model n fs) f m =
        (exampleFieldsData R today n fs).bind
          (fun data => jsonRoundtrip (Value.obj data)) ∧
      model_to_json true R today n fs =
        (exampleFieldsData R today n fs).bind
          (fun data => dumpsVal 0 (Value.obj data))) ∧
    (∀ (R : PyRandom) (today : Date) (M n : String) (fs : List (String × Ty))
      (f1 f2 : String),
      exampleFieldsData R today M [(f1, Ty.model n fs), (f2, Ty.model n fs)] =
        (example_for_type R today (Ty.model n fs) f1 M).bind
          (fun v => Except.ok [(f1, v), (f2, v)])) := by
  refine ⟨fun _ _ _ _ _ _ _ _ => rfl, fun _ _ _ _ _ _ => ⟨rfl, rfl⟩, ?_⟩
  intro R today M n fs f1 f2
  cases hv : example_for_type R today (Ty.model n fs) f1 M with
  | error e =>
      simp only [exampleFieldsData, hv]
      rfl
  | ok v =>
      have hv2 : example_for_type R today (Ty.model n fs) f2 M = .ok v := hv
      simp only [exampleFieldsData, hv, hv2]
      rfl

/-- C4, counterexample to "strip one trailing s": Python's
`field_name.rstrip("s")` removes the whole trailing run of `'s'`
characters, so the sequence field `boss` uses the basis `"bo"` — the
elements come out as `"M Bo"` / `"M Bo 2"` — whereas stripping one
trailing `"s"` would give the basis `"bos"` and elements `"M Bos"` /
`"M Bos 2"`. -/
theorem C4_singular_counterexample :
    rstripS "boss" = "bo" ∧
    pySingular "boss" = "bo" ∧
    example_for_type rngLo d0 (Ty.list Ty.str) "boss" "M" =
      .ok (Value.list [Value.str "M Bo", Value.str "M Bo 2"]) ∧
    example_for_type rngLo d0 Ty.str "bos" "M" = .ok (Value.str "M Bos") ∧
    ("M Bo" : String) ≠ "M Bos" :=
  ⟨rfl, rfl, rfl, rfl, by decide⟩

/-- C4 as amended: for every sequence-typed field the synthesizer uses,
as the naming basis for both element syntheses, the field name with its
ENTIRE trailing run of `"s"` characters stripped (so `"categories"`
becomes `"categorie"`, but also `"boss"` becomes `"bo"`), falling back
to the original field name when stripping yields the empty string. -/
theorem C4_singular_basis (R : PyRandom) (today : Date) (e : Ty)
    (f m : String) (v : Value)
    (hv : example_for_type R today e (pySingular f) m = .ok v) :
    example_for_type R today (Ty.list e) f m =
      .ok (Value.list [v, dedupSecond v v]) ∧
    example_for_type R today (Ty.tup e) f m =
      .ok (Value.tup [v, dedupSecond v v]) ∧
    pySingular f = (if rstripS f = "" then f else rstripS f) ∧
    pySingular "categories" = "categorie" ∧
    (∃ k, f.toList = (rstripS f).toList ++ List.replicate k 's') ∧
    (∀ c, (rstripS f).toList.getLast? = some c → c ≠ 's') := by
  refine ⟨?_, ?_, rfl, rfl, (rstripS_spec f).1, (rstripS_spec f).2⟩
  · simp only [example_for_type, hv]
    rfl
  · simp only [example_for_type, hv]
    rfl

/-- Witness for C4's amended theorem: the `participants: list[str]` field
of `CalendarEvent` synthesizes both elements under the basis
`participant`. -/
theorem C4_singular_basis_witness :
    example_for_type rngLo d0 (Ty.list Ty.str) "participants" "CalendarEvent" =
      .ok (Value.list [Value.str "CalendarEvent Participant",
        dedupSecond (Value.str "CalendarEvent Participant")
          (Value.str "CalendarEvent Participant")]) :=
  (C4_singular_basis rngLo d0 Ty.str "participants" "CalendarEvent"
    (Value.str "CalendarEvent Participant") rfl).1

/-- C6: for a sequence-typed field, the returned sequence is the two
element syntheses with the duplication rule applied to the second: when
both elements are strings and equal, the second becomes the first with
the literal suffix `" 2"` appended — so it ends in `" 2"` and differs
from the first — and when the elements are not both strings, or are
strings that differ, the second is returned unmodified.  (In this pure
embedding the two element syntheses are identical calls, so two string
elements always coincide.) -/
theorem C6_distinct_under_duplication (R : PyRandom) (today : Date)
    (e : Ty) (f m : String) (v : Value)
    (hv : example_for_type R today e (pySingular f) m = .ok v) :
    example_for_type R today (Ty.list e) f m =
      .ok (Value.list [v, dedupSecond v v]) ∧
    (∀ a, v = Value.str a →
      dedupSecond v v = Value.str (a ++ " 2") ∧
      strEndsWith (a ++ " 2") " 2" = true ∧
      a ++ " 2" ≠ a) ∧
    ((∀ a, v ≠ Value.str a) → dedupSecond v v = v) ∧
    (∀ a b, a ≠ b → dedupSecond (Value.str a) (Value.str b) = Value.str b) := by
  refine ⟨?_, ?_, ?_, ?_⟩
  · simp only [example_for_type, hv]
    rfl
  · rintro a rfl
    refine ⟨by simp [dedupSecond], ?_, ?_⟩
    · have hl : (a ++ " 2").toList = a.toList ++ [' ', '2'] := by
        simp [String.toList, String.data_append]
      simp [strEndsWith, hl, chStarts]
    · intro h
      have : (" 2" : String).length = 0 := by
        have h2 := congrArg String.length h
        simp [String.length_append] at h2
        exact h2
      simp [String.length] at this
  · intro h
    cases v with
    | str a => exact absurd rfl (h a)
    | int n => rfl
    | float z => rfl
    | bool b => rfl
    | list vs => rfl
    | tup vs => rfl
    | set vs => rfl
    | dict es => rfl
    | obj fs => rfl
  · intro a b hab
    simp [dedupSecond, hab]

/-- Witness for C6 at the `participants` field of `CalendarEvent`: the
duplicated string element gets the `" 2"` suffix and differs from the
first. -/
theorem C6_distinct_under_duplication_witness :
    dedupSecond (Value.str "CalendarEvent Participant")
        (Value.str "CalendarEvent Participant") =
      Value.str ("CalendarEvent Participant" ++ " 2") ∧
    strEndsWith ("CalendarEvent Participant" ++ " 2") " 2" = true ∧
    "CalendarEvent Participant" ++ " 2" ≠ "CalendarEvent Participant" :=
  (C6_distinct_under_duplication rngLo d0 Ty.str "participants" "CalendarEvent"
    (Value.str "CalendarEvent Participant") rfl).2.1
    "CalendarEvent Participant" rfl

/-- C5: synthesizing `CalendarEvent` (fields `name: str`, `date: str`,
`participants: list[str]`) yields an object whose `name` is exactly
`"CalendarEvent Name"`, whose `date` is the ISO-8601 rendering of a
valid calendar date 1–180 days after the current date (strictly in the
future, at most 180 days out), and whose `participants` is the
two-element list of the distinct strings `"CalendarEvent Participant"`
and `"CalendarEvent Participant 2"`. -/
theorem C5_calendar_event_scenario (R : PyRandom) (today : Date)
    (hv : ValidDate today) :
    ∃ k, k = R.randint (seed_basis "CalendarEvent" "date") 1 180 ∧
      1 ≤ k ∧ k ≤ 180 ∧
      exampleFieldsData R today "CalendarEvent" calendarEventFields =
        .ok [("name", Value.str "CalendarEvent Name"),
             ("date", Value.str (isoFormat (addDays today k))),
             ("participants", Value.list [Value.str "CalendarEvent Participant",
               Value.str "CalendarEvent Participant 2"])] ∧
      ValidDate (addDays today k) ∧ dateLt today (addDays today k) ∧
      ("CalendarEvent Participant" : String) ≠ "CalendarEvent Participant 2" := by
  obtain ⟨h1, h2⟩ :=
    R.randint_mem (seed_basis "CalendarEvent" "date") 1 180 (by omega)
  exact ⟨_, rfl, h1, h2, rfl, validDate_addDays hv _, dateLt_addDays today h1,
    by decide⟩

/-- Witness for C5 with today = 2026-10-12 and the lower-end draw. -/
theorem C5_calendar_event_scenario_witness :
    ∃ k, k = rngLo.randint (seed_basis "CalendarEvent" "date") 1 180 ∧
      1 ≤ k ∧ k ≤ 180 ∧
      exampleFieldsData rngLo d0 "CalendarEvent" calendarEventFields =
        .ok [("name", Value.str "CalendarEvent Name"),
             ("date", Value.str (isoFormat (addDays d0 k))),
             ("participants", Value.list [Value.str "CalendarEvent Participant",
               Value.str "CalendarEvent Participant 2"])] ∧
      ValidDate (addDays d0 k) ∧ dateLt d0 (addDays d0 k) ∧
      ("CalendarEvent Participant" : String) ≠ "CalendarEvent Participant 2" :=
  C5_calendar_event_scenario rngLo d0 (by decide)

/-- C8, counterexample to the universally-quantified shape isomorphism:
(a) for a Mapping-typed field whose Key is a Sequence — `dict[list[str],
str]` — synthesis produces no ExampleValue at all, because the
synthesized key is a Python list and dict construction raises
`TypeError: unhashable type`; and (b) a set-typed sequence field with a
non-textual element type yields a ONE-element set, not a 2-element
sequence: `set[int]` gives `{0}` after deduplication. -/
theorem C8_shape_counterexample :
    example_for_type rngLo d0 (Ty.dict (Ty.list Ty.str) Ty.str) "m" "M" =
      .error "unhashable type" ∧
    example_for_type rngLo d0 (Ty.set Ty.int) "xs" "M" =
      .ok (Value.set [Value.int 0]) ∧
    ([Value.int 0] : List Value).length ≠ 2 :=
  ⟨rfl, rfl, by decide⟩

/-- C8 as amended: whenever synthesis returns a value (it raises instead
when a mapping key is unhashable or a set meets `json.dumps` inside a
nested model), the synthesized tree mirrors the schema's shape — every
list/tuple node has exactly 2 elements, every dict node exactly 1 entry,
every set node 1 or 2 members (1 exactly when the duplicated element was
non-textual), and the value's nesting depth equals the schema's nesting
depth. -/
theorem C8_shape_isomorphism (R : PyRandom) (today : Date) (t : Ty)
    (f m : String) (v : Value)
    (h : example_for_type R today t f m = .ok v) :
    arityOk v = true ∧ valDepth v = tyDepth t :=
  shape_t t R today f m v h

/-- Witness for C8 on a doubly-nested schema (a model containing a model
containing a sequence, next to a mapping): the synthesized tree is
well-shaped and has depth 3, like the schema. -/
theorem C8_shape_isomorphism_witness :
    arityOk (Value.obj [("inner", Value.obj [("tags",
        Value.list [Value.str "Inner Tag", Value.str "Inner Tag 2"])]),
        ("m", Value.dict [(Value.str "Outer Key", Value.int 0)])]) = true ∧
    valDepth (Value.obj [("inner", Value.obj [("tags",
        Value.list [Value.str "Inner Tag", Value.str "Inner Tag 2"])]),
        ("m", Value.dict [(Value.str "Outer Key", Value.int 0)])]) =
      tyDepth (Ty.model "Outer"
        [("inner", Ty.model "Inner" [("tags", Ty.list Ty.str)]),
         ("m", Ty.dict Ty.str Ty.int)]) :=
  C8_shape_isomorphism rngLo d0
    (Ty.model "Outer" [("inner", Ty.model "Inner" [("tags", Ty.list Ty.str)]),
      ("m", Ty.dict Ty.str Ty.int)]) "root" "Root"
    (Value.obj [("inner", Value.obj [("tags",
      Value.list [Value.str "Inner Tag", Value.str "Inner Tag 2"])]),
      ("m", Value.dict [(Value.str "Outer Key", Value.int 0)])]) rfl

end ClientUtil
